import Mathlib

/-!
Shallow embedding of `src/services/gemini.ts` (Toonmotion chinese client).

The repository is a thin client around one chat-completion HTTP API.  The
embedding models, faithfully to the source:

* the three-strategy response parser of `generateSingleFrame`
  (markdown-image regex, bare-URL regex, base64 heuristic),
* JavaScript `atob` (WHATWG forgiving-base64 decode) as used by `b64toBlob`,
* `fetchAndCreateBlobUrl` with its raw-URL fallback,
* the batch orchestrator `generateAnimationFrames` (batch size 3, abort
  checks before each batch and after each batch join),
* `checkApiKey` with its legacy `window.aistudio` branch.

External effects are abstracted as parameters: the HTTP reply for frame `j`
is an oracle `resp : Nat -> Except GenError (Option (List Char))` (an API
failure, or the optional `message.content` string), and the success of the
resource fetch for a URL is an oracle `fOk : List Char -> Bool`.  Strings
are modelled as lists of Unicode scalar values.  `Promise.all` is the
order-preserving join: its resolved array is in argument order by the
JavaScript specification, independent of completion timing; rejection is
modelled as the leftmost failing member.  The cooperative abort signal is
modelled by the index of the first boundary check at which it reads
aborted (checks are numbered 0, 1, 2, ... in program order; the signal
transitions once, so check `c` observes the abort iff `t <= c`).
-/

set_option maxRecDepth 16384

namespace Toonmotion

/-- JavaScript line terminators: `.` in a regex does not match these. -/
def isLineTerm (c : Char) : Bool :=
  c.toNat = 0x0a || c.toNat = 0x0d || c.toNat = 0x2028 || c.toNat = 0x2029

/-- JavaScript regex `\s` character class (WhiteSpace plus LineTerminator). -/
def isJsWhitespace (c : Char) : Bool :=
  c.toNat = 0x20 || c.toNat = 0x09 || c.toNat = 0x0a || c.toNat = 0x0b ||
  c.toNat = 0x0c || c.toNat = 0x0d || c.toNat = 0xa0 || c.toNat = 0x1680 ||
  (decide (0x2000 ≤ c.toNat) && decide (c.toNat ≤ 0x200a)) ||
  c.toNat = 0x2028 || c.toNat = 0x2029 || c.toNat = 0x202f ||
  c.toNat = 0x205f || c.toNat = 0x3000 || c.toNat = 0xfeff

/-- ASCII whitespace, stripped by the forgiving-base64 decode of `atob`. -/
def isAsciiWs (c : Char) : Bool :=
  c.toNat = 0x09 || c.toNat = 0x0a || c.toNat = 0x0c || c.toNat = 0x0d ||
  c.toNat = 0x20

/-!
Markdown-image regex of the source, first strategy of the parser:
content.match of the pattern  bang, bracket, lazy dots, close bracket,
open paren, capture of lazy dots, close paren.  Lazy `.*?` grows one
non-line-terminator at a time; the engine scans start positions left to
right and returns the first match.  `mdFind` returns capture group 1 of
the first match, when a match exists.
-/

/-- Inner capture: match lazy dots then a closing paren at the head of the
input, returning the shortest group of non-line-terminator characters. -/
def mdGroupAt : List Char → Option (List Char)
  | [] => none
  | c :: rest =>
    if c = ')' then some []
    else if isLineTerm c then none
    else (mdGroupAt rest).map (c :: ·)

/-- After the opening bang-bracket: lazy dots, close bracket, open paren,
then the inner capture; on inner failure the outer lazy star consumes one
more character (backtracking), never crossing a line terminator. -/
def mdAfterBang : List Char → Option (List Char)
  | ']' :: '(' :: rest =>
    (match mdGroupAt rest with
     | some g => some g
     | none => mdAfterBang ('(' :: rest))
  | c :: rest => if isLineTerm c then none else mdAfterBang rest
  | [] => none

/-- Scan start positions left to right for the markdown-image pattern;
return capture group 1 of the first match. -/
def mdFind : List Char → Option (List Char)
  | '!' :: '[' :: rest =>
    (match mdAfterBang rest with
     | some g => some g
     | none => mdFind ('[' :: rest))
  | _ :: rest => mdFind rest
  | [] => none

/-- The source condition for strategy 1 is that the match exists and its
capture group 1 is truthy, i.e. a nonempty string. -/
def mdUrl (cs : List Char) : Option (List Char) :=
  match mdFind cs with
  | some g => if g.isEmpty then none else some g
  | none => none

/-!
Bare-URL regex of the source, second strategy: http, optional s, colon,
two slashes, then one or more non-whitespace characters (greedy).  The
whole match (group 0) is always nonempty when a match exists, so the
source condition for strategy 2 reduces to the existence of a match.
-/

/-- Attempt the URL pattern anchored at the head of the input. -/
def urlAt (cs : List Char) : Option (List Char) :=
  if List.isPrefixOf "https://".data cs then
    let tl := (cs.drop 8).takeWhile (fun c => !isJsWhitespace c)
    if tl.isEmpty then none else some ("https://".data ++ tl)
  else if List.isPrefixOf "http://".data cs then
    let tl := (cs.drop 7).takeWhile (fun c => !isJsWhitespace c)
    if tl.isEmpty then none else some ("http://".data ++ tl)
  else none

/-- Scan start positions left to right; return the first URL match. -/
def urlFind : List Char → Option (List Char)
  | [] => none
  | c :: rest =>
    match urlAt (c :: rest) with
    | some u => some u
    | none => urlFind rest

/-!
JavaScript `atob`: the WHATWG forgiving-base64 decode.  Strip ASCII
whitespace; if the length is a multiple of four, strip one or two
trailing padding signs; fail if the remaining length is 1 mod 4 or any
character is outside the base64 alphabet; otherwise emit the decoded
bytes (a trailing group of two or three sextets yields one or two bytes).
-/

/-- Value of a base64 alphabet character, `none` outside the alphabet. -/
def base64Val (c : Char) : Option Nat :=
  if 65 ≤ c.toNat ∧ c.toNat ≤ 90 then some (c.toNat - 65)
  else if 97 ≤ c.toNat ∧ c.toNat ≤ 122 then some (c.toNat - 97 + 26)
  else if 48 ≤ c.toNat ∧ c.toNat ≤ 57 then some (c.toNat - 48 + 52)
  else if c = '+' then some 62
  else if c = '/' then some 63
  else none

/-- Strip one or two trailing padding signs when the length is 0 mod 4. -/
def stripPad (cs : List Char) : List Char :=
  if cs.length % 4 = 0 then
    match cs.reverse with
    | '=' :: '=' :: rest => rest.reverse
    | '=' :: rest => rest.reverse
    | _ => cs
  else cs

/-- Reassemble 6-bit values into bytes, dropping trailing partial bits. -/
def decodeSextets : List Nat → List Nat
  | a :: b :: c :: d :: rest =>
    (a * 4 + b / 16) :: ((b % 16) * 16 + c / 4) :: ((c % 4) * 64 + d) ::
      decodeSextets rest
  | [a, b] => [a * 4 + b / 16]
  | [a, b, c] => [a * 4 + b / 16, (b % 16) * 16 + c / 4]
  | _ => []

/-- `atob`: forgiving-base64 decode; `none` models the thrown exception. -/
def atob (s : List Char) : Option (List Nat) :=
  let d := stripPad (s.filter (fun c => !isAsciiWs c))
  if d.length % 4 = 1 then none
  else
    match d.mapM base64Val with
    | none => none
    | some vs => some (decodeSextets vs)

/-- `b64toBlob`: decodes via `atob` and assembles the bytes into a blob;
the 512-wide slicing of the source concatenates back to the decoded byte
sequence, so the blob content is exactly the `atob` output.  `none`
models the exception thrown by `atob` on invalid input. -/
def b64toBlob (b64Data : List Char) : Option (List Nat) :=
  atob b64Data

/-!
The response parser of `generateSingleFrame`, lines 74 to 97 of the
source: strategy 1 (markdown image with truthy capture group), strategy 2
(bare URL), strategy 3 (length over 100, no space character, decodable by
`atob`), otherwise the diagnostic error carrying the first 100
characters of the reply.
-/

/-- Which strategy resolved the reply, with its payload. -/
inductive ParseOutcome where
  | markdown (url : List Char)
  | bareUrl (url : List Char)
  | base64 (bytes : List Nat)
  | unparsable (pre : List Char)
deriving DecidableEq, Repr

/-- Guard of strategy 3 in the source: length strictly over 100 and no
space character (only the space, not other whitespace, is tested). -/
def stratCCond (cs : List Char) : Bool :=
  decide (100 < cs.length) && !(cs.contains ' ')

/-- The parser, strategies in source order, first match wins. -/
def parseContent (cs : List Char) : ParseOutcome :=
  match mdUrl cs with
  | some u => .markdown u
  | none =>
    match urlFind cs with
    | some u => .bareUrl u
    | none =>
      if stratCCond cs then
        match b64toBlob cs with
        | some bytes => .base64 bytes
        | none => .unparsable (cs.take 100)
      else .unparsable (cs.take 100)

/-- The value returned for one frame: a materialized blob handle for a
fetched URL, the raw URL on fetch failure, or a blob of decoded bytes. -/
inductive Resolved where
  | fetched (url : List Char)
  | rawUrl (url : List Char)
  | blobOfBytes (bytes : List Nat)
deriving DecidableEq, Repr

/-- The error taxonomy of the source file. -/
inductive GenError where
  | noApiKey
  | noContent
  | unparsable (pre : List Char)
  | aborted
  | network (code : Nat)
deriving DecidableEq, Repr

/-- `fetchAndCreateBlobUrl`: fetch the URL and materialize a blob handle;
on any fetch failure, return the original URL (the catch branch). -/
def fetchAndCreateBlobUrl (fOk : List Char → Bool) (url : List Char) : Resolved :=
  if fOk url then .fetched url else .rawUrl url

/-- Processing of the reply text in `generateSingleFrame`: the falsy check
on `content` (absent or empty string) throws the no-content error, then
the parsed outcome is resolved.  URL strategies fetch and fall back to
the raw URL; strategy 3 wraps decoded bytes in a blob handle. -/
def resolveContent (fOk : List Char → Bool) (content : Option (List Char)) :
    Except GenError Resolved :=
  match content with
  | none => .error .noContent
  | some cs =>
    if cs.isEmpty then .error .noContent
    else
      match parseContent cs with
      | .markdown u => .ok (fetchAndCreateBlobUrl fOk u)
      | .bareUrl u => .ok (fetchAndCreateBlobUrl fOk u)
      | .base64 bytes => .ok (.blobOfBytes bytes)
      | .unparsable pre => .error (.unparsable pre)

/-- `generateSingleFrame` for frame `j`: `getAiClient` throws the
configuration error when the key is absent, before any request; otherwise
the request is issued and its reply (`resp j`, an API failure or the
optional content string) is resolved.  The catch of the source logs and
rethrows, leaving the error unchanged. -/
def generateSingleFrame (hk : Bool)
    (resp : Nat → Except GenError (Option (List Char)))
    (fOk : List Char → Bool) (j : Nat) : Except GenError Resolved :=
  if hk then
    match resp j with
    | .error e => .error e
    | .ok content => resolveContent fOk content
  else .error .noApiKey

/-!
The batch orchestrator `generateAnimationFrames`, lines 140 to 172 of
the source: batches of 3, abort check before each batch and again after
the batch join, results appended in index order.
-/

/-- Decidable equality of outcomes, for concrete evaluation. -/
instance instDecEqExcept {ε α : Type} [DecidableEq ε] [DecidableEq α] :
    DecidableEq (Except ε α) := fun a b =>
  match a, b with
  | .error e, .error e' =>
    if h : e = e' then .isTrue (by rw [h])
    else .isFalse (by intro hh; injection hh; contradiction)
  | .ok v, .ok v' =>
    if h : v = v' then .isTrue (by rw [h])
    else .isFalse (by intro hh; injection hh; contradiction)
  | .error _, .ok _ => .isFalse (by intro hh; injection hh)
  | .ok _, .error _ => .isFalse (by intro hh; injection hh)

/-- Outcome of a run: the returned value or thrown error, together with
the indices of the frames for which a network request was issued. -/
structure RunOutcome where
  result : Except GenError (List Resolved)
  issued : List Nat
deriving DecidableEq, Repr

/-- The boundary check number `c` observes the abort iff the signal fired
at some earlier or equal check index `t`. -/
def abortedAt (ab : Option Nat) (c : Nat) : Bool :=
  match ab with
  | none => false
  | some t => decide (t ≤ c)

/-- `Promise.all`: the resolved array is in argument order; a rejection is
modelled as the leftmost failing member. -/
def joinAll (f : Nat → Except GenError Resolved) :
    List Nat → Except GenError (List Resolved)
  | [] => .ok []
  | j :: rest =>
    match f j with
    | .error e => .error e
    | .ok v =>
      match joinAll f rest with
      | .error e => .error e
      | .ok vs => .ok (v :: vs)

/-- The orchestrator loop over the list of batch start indices (the values
of `i` in the source loop: multiples of 3 below `count`).  Each iteration
checks the signal, issues the batch `i, ..., min (i+3) count - 1` (the
staggered start delays do not affect values), joins, re-checks the
signal, and appends the batch results in index order. -/
def runBatches (frame : Nat → Except GenError Resolved) (hk : Bool)
    (count : Int) (ab : Option Nat) :
    List Nat → Nat → List Resolved → List Nat → RunOutcome
  | [], _, acc, iss => ⟨.ok acc, iss⟩
  | i :: rest, chk, acc, iss =>
    if abortedAt ab chk then ⟨.error .aborted, iss⟩
    else
      let batch := List.range' i (min 3 (count.toNat - i))
      let iss' := iss ++ (if hk then batch else [])
      match joinAll frame batch with
      | .error e => ⟨.error e, iss'⟩
      | .ok vs =>
        if abortedAt ab (chk + 1) then ⟨.error .aborted, iss'⟩
        else runBatches frame hk count ab rest (chk + 2) (acc ++ vs) iss'

/-- `generateAnimationFrames`: the loop runs for start indices 0, 3, 6, ...
below `count`, that is `ceil (count / 3)` batches when `count` is
positive and none otherwise. -/
def generateAnimationFrames (hk : Bool)
    (resp : Nat → Except GenError (Option (List Char)))
    (fOk : List Char → Bool) (count : Int) (ab : Option Nat) : RunOutcome :=
  runBatches (generateSingleFrame hk resp fOk) hk count ab
    (List.range' 0 ((count.toNat + 2) / 3) 3) 0 [] []

/-!
`checkApiKey`, lines 174 to 188 of the source, and the key presence test
of `getAiClient`.
-/

/-- The ambient environment: the `API_KEY` variable, and the legacy
`window.aistudio.hasSelectedApiKey` mechanism when present (its call may
resolve to a boolean or throw, which the source catches as false). -/
structure Env where
  apiKey : Option String
  aistudio : Option (Except Unit Bool)

/-- Truthiness of `process.env.API_KEY`, as tested by `getAiClient`:
present and nonempty. -/
def envKeyPresent (e : Env) : Bool :=
  match e.apiKey with
  | some k => !k.isEmpty
  | none => false

/-- Whether the legacy AIStudio mechanism exists and reports a key. -/
def aistudioReportsKey (e : Env) : Bool :=
  match e.aistudio with
  | some (.ok b) => b
  | some (.error _) => false
  | none => false

/-- `checkApiKey`: a present nonempty key answers true; otherwise the
legacy AIStudio check is consulted when available (a throw is caught and
answered false); otherwise false. -/
def checkApiKey (e : Env) : Bool :=
  if envKeyPresent e then true
  else
    match e.aistudio with
    | some (.ok b) => b
    | some (.error _) => false
    | none => false

/-- Whitespace characters, for the whitespace-free-run reading of the
specification (space, tab, line feed, vertical tab, form feed, carriage
return). -/
def isWsChar (c : Char) : Bool :=
  c.toNat = 0x20 || c.toNat = 0x09 || c.toNat = 0x0a || c.toNat = 0x0b ||
  c.toNat = 0x0c || c.toNat = 0x0d

/-- Length of the longest whitespace-free contiguous run of a reply. -/
def maxRunLen (cs : List Char) : Nat :=
  (cs.foldl
    (fun p c => if isWsChar c then (0, p.2) else (p.1 + 1, max (p.1 + 1) p.2))
    (0, 0)).2

/-!
Helper lemmas about the order-preserving join and the batch loop.
-/

theorem joinAll_ok {f : Nat → Except GenError Resolved} :
    ∀ {js : List Nat} {vs : List Resolved}, joinAll f js = .ok vs →
      vs.length = js.length ∧
      ∀ k, k < js.length → ∃ j v, js[k]? = some j ∧ vs[k]? = some v ∧ f j = .ok v := by
  intro js
  induction js with
  | nil =>
    intro vs h
    simp only [joinAll] at h
    injection h with h
    subst h
    refine ⟨rfl, ?_⟩
    intro k hk
    simp at hk
  | cons j rest ih =>
    intro vs h
    simp only [joinAll] at h
    cases hfj : f j with
    | error e => rw [hfj] at h; exact absurd h (by simp)
    | ok v =>
      rw [hfj] at h
      cases hrest : joinAll f rest with
      | error e => rw [hrest] at h; exact absurd h (by simp)
      | ok vs' =>
        rw [hrest] at h
        injection h with h
        subst h
        obtain ⟨hlen, hget⟩ := ih hrest
        refine ⟨by simp [hlen], ?_⟩
        intro k hk
        match k with
        | 0 => exact ⟨j, v, by simp, by simp, hfj⟩
        | k + 1 =>
          obtain ⟨j', v', h1, h2, h3⟩ := hget k (by simpa using hk)
          exact ⟨j', v', by simpa using h1, by simpa using h2, h3⟩

theorem joinAll_all_ok {f : Nat → Except GenError Resolved} :
    ∀ {js : List Nat}, (∀ j ∈ js, ∃ v, f j = .ok v) → ∃ vs, joinAll f js = .ok vs := by
  intro js
  induction js with
  | nil => exact fun _ => ⟨[], rfl⟩
  | cons j rest ih =>
    intro h
    obtain ⟨v, hv⟩ := h j (by simp)
    obtain ⟨vs, hvs⟩ := ih (fun j' hj' => h j' (by simp [hj']))
    exact ⟨v :: vs, by simp only [joinAll, hv, hvs]⟩

theorem joinAll_first_err {f : Nat → Except GenError Resolved} {j₀ : Nat} {e : GenError}
    (hfail : f j₀ = .error e) (hok : ∀ j, j < j₀ → ∃ v, f j = .ok v) :
    ∀ n i, i ≤ j₀ → j₀ < i + n → joinAll f (List.range' i n) = .error e := by
  intro n
  induction n with
  | zero => intro i h1 h2; omega
  | succ n ih =>
    intro i h1 h2
    rw [List.range'_succ]
    by_cases hij : i = j₀
    · subst hij
      simp only [joinAll, hfail]
    · obtain ⟨v, hv⟩ := hok i (by omega)
      have hrec := ih (i + 1) (by omega) (by omega)
      simp only [joinAll, hv, hrec]

/-- Inversion of a successful run of the batch loop: the output extends
the accumulator with one successful frame value per remaining index, in
index order. -/
theorem runBatches_ok_aux (frame : Nat → Except GenError Resolved) (hk : Bool)
    (count : Int) (ab : Option Nat) :
    ∀ G i chk acc iss l,
      count.toNat ≤ i + 3 * G →
      (∀ k, k < G → i + 3 * k < count.toNat) →
      (runBatches frame hk count ab (List.range' i G 3) chk acc iss).result = .ok l →
      l.length = acc.length + (count.toNat - i) ∧
      (∀ k, k < acc.length → l[k]? = acc[k]?) ∧
      (∀ j, i ≤ j → j < count.toNat → ∃ v, frame j = .ok v ∧
        l[acc.length + (j - i)]? = some v) := by
  intro G
  induction G with
  | zero =>
    intro i chk acc iss l h1 _ hrun
    rw [List.range'_zero] at hrun
    simp only [runBatches] at hrun
    injection hrun with hrun
    subst hrun
    refine ⟨by omega, fun k _ => rfl, ?_⟩
    intro j hj1 hj2
    omega
  | succ G ih =>
    intro i chk acc iss l h1 h2 hrun
    rw [List.range'_succ] at hrun
    simp only [runBatches] at hrun
    have hic : i < count.toNat := by have := h2 0 (by omega); omega
    split at hrun
    · exact absurd hrun (by simp)
    · split at hrun
      next e heq => exact absurd hrun (by simp)
      next vs heq =>
        split at hrun
        · exact absurd hrun (by simp)
        · obtain ⟨hvlen, hvget⟩ := joinAll_ok heq
          rw [List.length_range'] at hvlen
          obtain ⟨hlen, hpre, hget⟩ := ih (i + 3) (chk + 2) (acc ++ vs) _ l
            (by omega) (fun k hk' => by have := h2 (k + 1) (by omega); omega) hrun
          rw [List.length_append, hvlen] at hlen hpre hget
          refine ⟨by omega, ?_, ?_⟩
          · intro k hk'
            rw [hpre k (by omega)]
            exact List.getElem?_append_left (by omega)
          · intro j hj1 hj2
            by_cases hjm : j < i + min 3 (count.toNat - i)
            · obtain ⟨j', v, hg1, hg2, hg3⟩ :=
                hvget (j - i) (by rw [List.length_range']; omega)
              rw [List.getElem?_range' _ _ (by omega)] at hg1
              injection hg1 with hg1
              have hjj : j' = j := by omega
              rw [hjj] at hg3
              refine ⟨v, hg3, ?_⟩
              rw [hpre (acc.length + (j - i)) (by omega),
                List.getElem?_append_right (by omega)]
              simpa using hg2
            · obtain ⟨v, hv1, hv2⟩ := hget j (by omega) hj2
              refine ⟨v, hv1, ?_⟩
              have hidx : acc.length + min 3 (count.toNat - i) + (j - (i + 3)) =
                  acc.length + (j - i) := by omega
              rw [hidx] at hv2
              exact hv2

/-- When every frame succeeds and the signal fires at boundary check `t`
before the checks run out, the loop terminates in the abort error. -/
theorem runBatches_abort_aux (frame : Nat → Except GenError Resolved) (hk : Bool)
    (count : Int) (t : Nat)
    (hok : ∀ j, j < count.toNat → ∃ v, frame j = .ok v) :
    ∀ G i chk acc iss,
      (∀ k, k < G → i + 3 * k < count.toNat) →
      chk ≤ t → t < chk + 2 * G →
      (runBatches frame hk count (some t) (List.range' i G 3) chk acc iss).result =
        .error .aborted := by
  intro G
  induction G with
  | zero => intro i chk acc iss _ h2 h3; omega
  | succ G ih =>
    intro i chk acc iss h1 h2 h3
    rw [List.range'_succ]
    simp only [runBatches]
    by_cases habt : t ≤ chk
    · rw [if_pos (by simp [abortedAt, habt])]
    · rw [if_neg (by simp [abortedAt]; omega)]
      have hbatch : ∀ j ∈ List.range' i (min 3 (count.toNat - i)), ∃ v, frame j = .ok v := by
        intro j hj
        rw [List.mem_range'] at hj
        obtain ⟨k, hk', rfl⟩ := hj
        exact hok _ (by omega)
      obtain ⟨vs, hvs⟩ := joinAll_all_ok hbatch
      simp only [hvs]
      by_cases habt2 : t ≤ chk + 1
      · rw [if_pos (by simp [abortedAt, habt2])]
      · rw [if_neg (by simp [abortedAt]; omega)]
        exact ih (i + 3) (chk + 2) _ _
          (fun k hk' => by have := h1 (k + 1) (by omega); omega)
          (by omega) (by omega)

/-- With no abort signal, the first failing frame index determines the
error of the whole run. -/
theorem runBatches_err_aux (frame : Nat → Except GenError Resolved) (hk : Bool)
    (count : Int) (j₀ : Nat) (e : GenError)
    (hfail : frame j₀ = .error e)
    (hok : ∀ j, j < j₀ → ∃ v, frame j = .ok v)
    (hj₀ : j₀ < count.toNat) :
    ∀ G i chk acc iss,
      i ≤ j₀ → count.toNat ≤ i + 3 * G →
      (runBatches frame hk count none (List.range' i G 3) chk acc iss).result =
        .error e := by
  intro G
  induction G with
  | zero => intro i chk acc iss h1 h2; omega
  | succ G ih =>
    intro i chk acc iss h1 h2
    rw [List.range'_succ]
    simp only [runBatches]
    rw [if_neg (by simp [abortedAt])]
    by_cases hin : j₀ < i + min 3 (count.toNat - i)
    · have hjoin := joinAll_first_err hfail hok (min 3 (count.toNat - i)) i h1 hin
      simp only [hjoin]
    · have hbatch : ∀ j ∈ List.range' i (min 3 (count.toNat - i)), ∃ v, frame j = .ok v := by
        intro j hj
        rw [List.mem_range'] at hj
        obtain ⟨k, hk', rfl⟩ := hj
        exact hok _ (by omega)
      obtain ⟨vs, hvs⟩ := joinAll_all_ok hbatch
      simp only [hvs]
      rw [if_neg (by simp [abortedAt])]
      exact ih (i + 3) (chk + 2) _ _ (by omega) (by omega)

/-!
Claim theorems.
-/

/-- C2: the response parser applies exactly three strategies in the fixed
order markdown-image-reference, then bare HTTP(S) URL, then long
space-free base64-like token; the first strategy whose condition holds
determines the result, and a reply resolved by an earlier strategy is
never resolved by a later one. -/
theorem spec_c2 (cs : List Char) :
    (∀ u, mdUrl cs = some u → parseContent cs = .markdown u) ∧
    (mdUrl cs = none → ∀ u, urlFind cs = some u → parseContent cs = .bareUrl u) ∧
    (mdUrl cs = none → urlFind cs = none → stratCCond cs = true →
      ∀ bs, b64toBlob cs = some bs → parseContent cs = .base64 bs) ∧
    (mdUrl cs = none → urlFind cs = none →
      (stratCCond cs = false ∨ b64toBlob cs = none) →
      parseContent cs = .unparsable (cs.take 100)) := by
  refine ⟨?_, ?_, ?_, ?_⟩
  · intro u hu
    simp [parseContent, hu]
  · intro h0 u hu
    simp [parseContent, h0, hu]
  · intro h0 h1 h2 bs hbs
    simp [parseContent, h0, h1, h2, hbs]
  · intro h0 h1 h2
    rcases h2 with h2 | h2
    · simp [parseContent, h0, h1, h2]
    · by_cases h3 : stratCCond cs = true
      · simp [parseContent, h0, h1, h3, h2]
      · simp [parseContent, h0, h1, Bool.not_eq_true _ ▸ h3]

/-- Witness for C2: a reply containing both a markdown image and another
bare URL resolves through the first strategy. -/
theorem spec_c2_w :
    parseContent "![alt](https://x/y.png) and https://other/z".data =
      .markdown "https://x/y.png".data :=
  (spec_c2 "![alt](https://x/y.png) and https://other/z".data).1
    "https://x/y.png".data (by decide)

/-- C8: a reply containing a markdown image reference resolves via
strategy (a); a reply containing only a bare URL resolves via strategy
(b); a 500-character contiguous token with no whitespace resolves via
strategy (c), producing the decoded image bytes. -/
theorem spec_c8 :
    parseContent "![alt](https://x/y.png)".data =
      .markdown "https://x/y.png".data ∧
    resolveContent (fun _ => true) (some "![alt](https://x/y.png)".data) =
      .ok (.fetched "https://x/y.png".data) ∧
    parseContent "https://x/y.png".data = .bareUrl "https://x/y.png".data ∧
    resolveContent (fun _ => true) (some "https://x/y.png".data) =
      .ok (.fetched "https://x/y.png".data) ∧
    parseContent (List.replicate 500 'A') = .base64 (List.replicate 375 0) ∧
    resolveContent (fun _ => true) (some (List.replicate 500 'A')) =
      .ok (.blobOfBytes (List.replicate 375 0)) := by
  refine ⟨by decide, by decide, by decide, by decide, by decide, by decide⟩

/-- C4 as stated is false: this reply has no whitespace-free run of 100
characters (its longest run is 60 long), no URL and no markdown image,
yet the frame succeeds via strategy 3 and returns a blob, because the
source only tests for the space character and `atob` itself strips
ASCII whitespace; moreover the empty reply fails with the no-content
error rather than the diagnostic one. -/
theorem spec_c4_cex :
    (maxRunLen (List.replicate 60 'A' ++ '\n' :: List.replicate 60 'A') < 100 ∧
     urlFind (List.replicate 60 'A' ++ '\n' :: List.replicate 60 'A') = none ∧
     mdFind (List.replicate 60 'A' ++ '\n' :: List.replicate 60 'A') = none ∧
     resolveContent (fun _ => false)
       (some (List.replicate 60 'A' ++ '\n' :: List.replicate 60 'A')) =
       .ok (.blobOfBytes (List.replicate 90 0))) ∧
    resolveContent (fun _ => false) (some []) = .error .noContent :=
  ⟨⟨by decide, by decide, by decide, by decide⟩, by decide⟩

/-- C4 amended: for every nonempty reply that has length at most 100 or
contains a space character, and contains no HTTP(S) URL and no markdown
image reference, generateSingleFrame fails with a diagnostic error whose
message contains the first 100 characters of the reply. -/
theorem spec_c4 (fOk : List Char → Bool) (cs : List Char) (hne : cs ≠ [])
    (hsz : cs.length ≤ 100 ∨ cs.contains ' ' = true)
    (hurl : urlFind cs = none) (hmd : mdFind cs = none) :
    resolveContent fOk (some cs) = .error (.unparsable (cs.take 100)) := by
  have hmdu : mdUrl cs = none := by simp [mdUrl, hmd]
  have hcc : stratCCond cs = false := by
    rcases hsz with h | h
    · have hd : decide (100 < cs.length) = false := by simp; omega
      simp [stratCCond, hd]
    · simp only [stratCCond, Bool.and_eq_false_iff]
      right
      simpa using h
  have hie : cs.isEmpty = false := by
    cases cs
    · exact absurd rfl hne
    · rfl
  simp [resolveContent, hie, parseContent, hmdu, hurl, hcc]

/-- Witness for the amended C4 at a short unparsable reply. -/
theorem spec_c4_w :
    resolveContent (fun _ => false) (some "hello world".data) =
      .error (.unparsable ("hello world".data.take 100)) :=
  spec_c4 (fun _ => false) "hello world".data (by decide) (.inl (by decide))
    (by decide) (by decide)

/-- C10 as stated is false: this reply is longer than 100 characters,
contains no space and is not valid base64, yet the frame does not raise
the diagnostic error; the embedded URL resolves through strategy 2
first. -/
theorem spec_c10_cex :
    100 < ("https://".data ++ List.replicate 100 'a').length ∧
    ("https://".data ++ List.replicate 100 'a').contains ' ' = false ∧
    atob ("https://".data ++ List.replicate 100 'a') = none ∧
    resolveContent (fun _ => false)
      (some ("https://".data ++ List.replicate 100 'a')) =
      .ok (.rawUrl ("https://".data ++ List.replicate 100 'a')) :=
  ⟨by decide, by decide, by decide, by decide⟩

/-- C10 amended: for every reply longer than 100 characters with no space
character that is not valid base64 and contains no markdown image
reference and no HTTP(S) URL, the decode failure is caught internally
and generateSingleFrame raises the diagnostic could-not-find-image
error instead of propagating the decode exception. -/
theorem spec_c10 (fOk : List Char → Bool) (cs : List Char)
    (hlen : 100 < cs.length) (hsp : cs.contains ' ' = false)
    (hb : atob cs = none) (hmd : mdFind cs = none) (hurl : urlFind cs = none) :
    resolveContent fOk (some cs) = .error (.unparsable (cs.take 100)) := by
  have hmdu : mdUrl cs = none := by simp [mdUrl, hmd]
  have hcc : stratCCond cs = true := by
    simp [stratCCond, hlen]
    simpa using hsp
  have hie : cs.isEmpty = false := by
    cases cs
    · simp at hlen
    · rfl
  simp [resolveContent, hie, parseContent, hmdu, hurl, hcc, b64toBlob, hb]

/-- Witness for the amended C10: a long run of invalid base64 characters
yields the diagnostic error. -/
theorem spec_c10_w :
    resolveContent (fun _ => false) (some (List.replicate 101 '!')) =
      .error (.unparsable ((List.replicate 101 '!').take 100)) :=
  spec_c10 (fun _ => false) (List.replicate 101 '!') (by decide) (by decide)
    (by decide) (by decide) (by decide)

/-- C6: when fetching a URL matched by strategy (a) or (b) fails, the
frame does not fail: the fetch helper, and hence the frame, returns the
original matched URL. -/
theorem spec_c6 (fOk : List Char → Bool) (u cs : List Char)
    (hfail : fOk u = false) :
    fetchAndCreateBlobUrl fOk u = .rawUrl u ∧
    ((parseContent cs = .markdown u ∨ parseContent cs = .bareUrl u) →
      resolveContent fOk (some cs) = .ok (.rawUrl u)) := by
  constructor
  · simp [fetchAndCreateBlobUrl, hfail]
  · intro hp
    have hie : cs.isEmpty = false := by
      cases hcs : cs
      · subst hcs
        have he : parseContent ([] : List Char) = .unparsable [] := by decide
        rcases hp with h | h <;> rw [he] at h <;> exact absurd h (by simp)
      · rfl
    rcases hp with h | h <;>
      simp [resolveContent, hie, h, fetchAndCreateBlobUrl, hfail]

/-- Witness for C6: a bare-URL reply whose fetch fails returns the URL. -/
theorem spec_c6_w :
    resolveContent (fun _ => false) (some "https://x/y.png".data) =
      .ok (.rawUrl "https://x/y.png".data) :=
  (spec_c6 (fun _ => false) "https://x/y.png".data "https://x/y.png".data
    rfl).2 (.inr (by decide))

/-- C9: when count is zero or negative, generateAnimationFrames returns
the empty sequence, issues no requests and raises no error — in
particular no cancellation error, even when the token is already
aborted at the time of the call. -/
theorem spec_c9 (hk : Bool) (resp : Nat → Except GenError (Option (List Char)))
    (fOk : List Char → Bool) (count : Int) (ab : Option Nat) (hc : count ≤ 0) :
    generateAnimationFrames hk resp fOk count ab = ⟨.ok [], []⟩ := by
  have h0 : count.toNat = 0 := by omega
  simp [generateAnimationFrames, h0, runBatches]

/-- Witness for C9 at a negative count with an already-aborted token. -/
theorem spec_c9_w :
    generateAnimationFrames true (fun _ => .error .noContent) (fun _ => false)
      (-2) (some 0) = ⟨.ok [], []⟩ :=
  spec_c9 true (fun _ => .error .noContent) (fun _ => false) (-2) (some 0)
    (by decide)

/-- C1: any successful run with count = N returns exactly N results, and
the result at position j is the (necessarily successful) value of frame
request j, for every j below N; the join is order-preserving, so this
holds regardless of intra-group completion order. -/
theorem spec_c1 (hk : Bool) (resp : Nat → Except GenError (Option (List Char)))
    (fOk : List Char → Bool) (N : Nat) (ab : Option Nat) (l : List Resolved)
    (h : (generateAnimationFrames hk resp fOk (N : Int) ab).result = .ok l) :
    l.length = N ∧
    ∀ j, j < N → ∃ v, generateSingleFrame hk resp fOk j = .ok v ∧
      l[j]? = some v := by
  have htn : ((N : Int)).toNat = N := by omega
  simp only [generateAnimationFrames] at h
  rw [htn] at h
  obtain ⟨hlen, -, hget⟩ := runBatches_ok_aux (generateSingleFrame hk resp fOk)
    hk (N : Int) ab ((N + 2) / 3) 0 0 [] [] l (by omega) (fun k hk' => by omega) h
  rw [htn] at hlen hget
  refine ⟨by simpa using hlen, ?_⟩
  intro j hj
  obtain ⟨v, hv1, hv2⟩ := hget j (by omega) hj
  exact ⟨v, hv1, by simpa using hv2⟩

/-- Witness for C1 at a run of four identical successful frames. -/
theorem spec_c1_w :
    (List.replicate 4 (Resolved.fetched "https://a".data)).length = 4 ∧
    ∀ j, j < 4 → ∃ v,
      generateSingleFrame true (fun _ => .ok (some "https://a".data))
        (fun _ => true) j = .ok v ∧
      (List.replicate 4 (Resolved.fetched "https://a".data))[j]? = some v :=
  spec_c1 true (fun _ => .ok (some "https://a".data)) (fun _ => true) 4 none
    (List.replicate 4 (Resolved.fetched "https://a".data)) (by decide)

/-- C3: a token aborted at a group boundary terminates the run in the
cancellation error with no partial result sequence: aborted at the first
check, the run fails before any request is issued; first observed at the
check after group k (with all frames succeeding), the run still fails
with the cancellation error. -/
theorem spec_c3 (resp : Nat → Except GenError (Option (List Char)))
    (fOk : List Char → Bool) (N k : Nat) :
    (1 ≤ N → generateAnimationFrames true resp fOk (N : Int) (some 0) =
      ⟨.error .aborted, []⟩) ∧
    ((∀ j, j < N → ∃ v, generateSingleFrame true resp fOk j = .ok v) →
      3 * (k + 1) < N →
      (generateAnimationFrames true resp fOk (N : Int)
        (some (2 * k + 1))).result = .error .aborted) := by
  have htn : ((N : Int)).toNat = N := by omega
  constructor
  · intro hN
    obtain ⟨G', hG⟩ : ∃ G', ((N : Int).toNat + 2) / 3 = G' + 1 :=
      ⟨((N : Int).toNat + 2) / 3 - 1, by omega⟩
    simp only [generateAnimationFrames]
    rw [hG, List.range'_succ]
    simp [runBatches, abortedAt]
  · intro hok hkN
    simp only [generateAnimationFrames]
    exact runBatches_abort_aux (generateSingleFrame true resp fOk) true (N : Int)
      (2 * k + 1) (fun j hj => hok j (by omega)) (((N : Int).toNat + 2) / 3) 0 0 [] []
      (fun k' hk' => by omega) (by omega) (by omega)

/-- Witness for C3 with seven frames and the abort observed at check 0,
and at check 1 (after the first group). -/
theorem spec_c3_w :
    generateAnimationFrames true (fun _ => .ok (some "https://a".data))
      (fun _ => true) ((7 : Nat) : Int) (some 0) = ⟨.error .aborted, []⟩ ∧
    (generateAnimationFrames true (fun _ => .ok (some "https://a".data))
      (fun _ => true) ((7 : Nat) : Int) (some (2 * 0 + 1))).result =
      .error .aborted := by
  have h := spec_c3 (fun _ => .ok (some "https://a".data)) (fun _ => true) 7 0
  exact ⟨h.1 (by omega),
    h.2 (fun j hj => ⟨.fetched "https://a".data, rfl⟩) (by omega)⟩

/-- C5: the terminal failure of a single frame (the first failing index)
makes the whole run fail with that same error, and no partial result
list is returned; a missing or empty reply is such a terminal failure,
failing its frame immediately with the no-content error. -/
theorem spec_c5 (resp : Nat → Except GenError (Option (List Char)))
    (fOk : List Char → Bool) (count : Int) (j₀ : Nat) (e : GenError)
    (hj : (j₀ : Int) < count)
    (hfail : generateSingleFrame true resp fOk j₀ = .error e)
    (hok : ∀ j, j < j₀ → ∃ v, generateSingleFrame true resp fOk j = .ok v) :
    (generateAnimationFrames true resp fOk count none).result = .error e ∧
    ∀ f : List Char → Bool, resolveContent f none = .error .noContent ∧
      resolveContent f (some []) = .error .noContent := by
  refine ⟨?_, fun f => ⟨rfl, rfl⟩⟩
  simp only [generateAnimationFrames]
  exact runBatches_err_aux (generateSingleFrame true resp fOk) true count j₀ e
    hfail hok (by omega) ((count.toNat + 2) / 3) 0 0 [] [] (by omega) (by omega)

/-- Witness for C5: frame 1 receives an empty reply, and a five-frame run
fails with the no-content error. -/
theorem spec_c5_w :
    (generateAnimationFrames true
      (fun j => if j = 1 then .ok (some []) else .ok (some "https://a".data))
      (fun _ => true) 5 none).result = .error .noContent := by
  have h := spec_c5
    (fun j => if j = 1 then .ok (some []) else .ok (some "https://a".data))
    (fun _ => true) 5 1 .noContent (by decide) (by decide) (by
      intro j hj
      have hj0 : j = 0 := by omega
      subst hj0
      exact ⟨.fetched "https://a".data, by decide⟩)
  exact h.1

/-- C7 as stated is false on the code: with the credential absent from
the process environment the legacy AIStudio mechanism can still report a
selected key, making checkApiKey answer true; a generation call with
count 0 succeeds with the empty sequence instead of failing with the
configuration error; and a call whose token is already aborted fails
with the cancellation error instead. -/
theorem spec_c7_cex :
    checkApiKey ⟨none, some (.ok true)⟩ = true ∧
    generateAnimationFrames false (fun _ => .error .noContent)
      (fun _ => false) 0 none = ⟨.ok [], []⟩ ∧
    (generateAnimationFrames false (fun _ => .error .noContent)
      (fun _ => false) 1 (some 0)).result = .error .aborted :=
  ⟨rfl, by decide, by decide⟩

/-- C7 amended: when the access credential is missing from the process
environment, checkApiKey returns false provided the legacy AIStudio
mechanism does not report a selected key; and every generation call with
count at least 1 whose token is not aborted at the first check fails
with the configuration error before any network request is issued. -/
theorem spec_c7 (env : Env) (resp : Nat → Except GenError (Option (List Char)))
    (fOk : List Char → Bool) (count : Int) (ab : Option Nat)
    (hmiss : envKeyPresent env = false) :
    (aistudioReportsKey env = false → checkApiKey env = false) ∧
    (1 ≤ count → abortedAt ab 0 = false →
      generateAnimationFrames (envKeyPresent env) resp fOk count ab =
        ⟨.error .noApiKey, []⟩) := by
  constructor
  · intro hast
    rcases henv : env.aistudio with - | eb
    · simp [checkApiKey, hmiss, henv]
    · rcases eb with u | b
      · simp [checkApiKey, hmiss, henv]
      · simp only [aistudioReportsKey, henv] at hast
        simp [checkApiKey, hmiss, henv, hast]
  · intro hc hab
    rw [hmiss]
    simp only [generateAnimationFrames]
    obtain ⟨G', hG⟩ : ∃ G', (count.toNat + 2) / 3 = G' + 1 :=
      ⟨(count.toNat + 2) / 3 - 1, by omega⟩
    rw [hG, List.range'_succ]
    simp only [runBatches]
    rw [if_neg (by simp [hab])]
    obtain ⟨m', hm⟩ : ∃ m', min 3 (count.toNat - 0) = m' + 1 :=
      ⟨min 3 (count.toNat - 0) - 1, by omega⟩
    rw [hm, List.range'_succ]
    simp [joinAll, generateSingleFrame]

/-- Witness for the amended C7: no key and no AIStudio mechanism. -/
theorem spec_c7_w :
    checkApiKey ⟨none, none⟩ = false ∧
    generateAnimationFrames (envKeyPresent ⟨none, none⟩)
      (fun _ => .ok (some "x".data)) (fun _ => true) 2 none =
      ⟨.error .noApiKey, []⟩ := by
  have h := spec_c7 ⟨none, none⟩ (fun _ => .ok (some "x".data))
    (fun _ => true) 2 none rfl
  exact ⟨h.1 rfl, h.2 (by decide) rfl⟩

end Toonmotion
